import Mathlib

/-!
# tclPort.h and IMServicePlugInProtocols.h

A verification development for the two SDK headers of the repository.

* `TclPort`: the conditional-compilation logic of `tclPort.h` (include guard,
  platform include selection, `LLONG_MIN` / `LLONG_MAX` fallback), embedded as a
  small directive language with an interpreter over preprocessor
  configurations, together with an evaluator for the replacement lists the
  header defines.
* `IMService`: the connection-state contract that the documentation comments
  of `IMServicePlugInProtocols.h` attach to `-login`, `-logout`,
  `-plugInDidLogIn` and `-plugInDidLogOutWithError:reconnect:`.
-/

namespace TclPort

/-! ## Replacement lists -/

/-- The C expressions that occur in the replacement lists of `tclPort.h`
(and unary minus, which platform definitions of `LONG_MIN` use).
`castWide e` is `(Tcl_WideInt)(e)` and `longAsWide e` is `Tcl_LongAsWide(e)`. -/
inductive CExpr where
  | lit (n : Int)
  | ident (name : String)
  | neg (e : CExpr)
  | compl (e : CExpr)
  | sub (a b : CExpr)
  | shl (a b : CExpr)
  | castWide (e : CExpr)
  | longAsWide (e : CExpr)
  deriving DecidableEq

/-- The replacement list of an object-like definition: empty (as in
`#define _TCLPORT`) or an expression. -/
inductive Body where
  | empty
  | expr (e : CExpr)
  deriving DecidableEq

/-- A preprocessor configuration: for every name, whether it is defined and
with which replacement list. -/
abbrev Config := String → Option Body

/-- The operator `defined(n)`. -/
def isDefined (c : Config) (n : String) : Bool := (c n).isSome

/-- The directive `#define n b`: afterwards `n` stands for `b`, whether or not it
was defined before; every other name is untouched. -/
def define (c : Config) (n : String) (b : Body) : Config :=
  fun k => if k = n then some b else c k

/-- The configuration in which nothing is defined. -/
def emptyConfig : Config := fun _ => none

/-! ## Directives -/

/-- Conditions of `#if` / `#ifdef` / `#ifndef` lines. -/
inductive Cond where
  | defined (n : String)
  | not (c : Cond)
  deriving DecidableEq

/-- Truth of a condition in a configuration. -/
def Cond.holds (c : Config) : Cond → Bool
  | .defined n => isDefined c n
  | .not k => !(k.holds c)

/-- The directives used by `tclPort.h`. `ifElse k t e` is
`#if k … #else … #endif`; a conditional without `#else` has `skip` there. -/
inductive Dir where
  | define (n : String) (b : Body)
  | incl (file : String)
  | ifElse (k : Cond) (t e : Dir)
  | seq (a b : Dir)
  | skip
  deriving DecidableEq

/-- The result of processing directives: the configuration reached and the
files named by the `#include` lines that were processed, in order. -/
structure Out where
  config : Config
  included : List String

/-- The effect on the configuration of each file that can be included. The
included files (`tclConfig.h`, `tcl.h`, `tclWinPort.h`, `tclUnixPort.h`) are not
part of the sources, so their effect is a parameter. -/
abbrev FileEffects := String → Config → Config

/-- Processing of directives. -/
def run (env : FileEffects) : Dir → Config → Out
  | .define n b, c => ⟨define c n b, []⟩
  | .incl f, c => ⟨env f c, [f]⟩
  | .ifElse k t e, c => if k.holds c then run env t c else run env e c
  | .seq a b, c =>
      let r := run env a c
      let r2 := run env b r.config
      ⟨r2.config, r.included ++ r2.included⟩
  | .skip, c => ⟨c, []⟩

/-! ## The header, line by line -/

/-- Replacement list of line 32: `LONG_MIN`. -/
def llongMinLong : Body := .expr (.ident "LONG_MIN")

/-- Replacement list of line 35:
`((Tcl_WideInt)(Tcl_LongAsWide(1)<<(LLONG_BIT-1)))`. -/
def llongMinBit : Body :=
  .expr (.castWide (.shl (.longAsWide (.lit 1)) (.sub (.ident "LLONG_BIT") (.lit 1))))

/-- Replacement list of line 38: `((Tcl_WideInt)(Tcl_LongAsWide(1)<<63))`. -/
def llongMin64 : Body :=
  .expr (.castWide (.shl (.longAsWide (.lit 1)) (.lit 63)))

/-- Replacement list of line 42: `(~LLONG_MIN)`. -/
def llongMaxBody : Body := .expr (.compl (.ident "LLONG_MIN"))

/-- Lines 19-21: `#ifdef HAVE_TCL_CONFIG_H` / `#include "tclConfig.h"`. -/
def configInclude : Dir :=
  .ifElse (.defined "HAVE_TCL_CONFIG_H") (.incl "tclConfig.h") .skip

/-- Lines 24-28: the platform-specific portability header. -/
def platformInclude : Dir :=
  .ifElse (.defined "__WIN32__") (.incl "tclWinPort.h") (.incl "tclUnixPort.h")

/-- Lines 30-43: the `LLONG_MIN` / `LLONG_MAX` fallback. -/
def llongFallback : Dir :=
  .ifElse (.not (.defined "LLONG_MIN"))
    (.seq
      (.ifElse (.defined "TCL_WIDE_INT_IS_LONG")
        (.define "LLONG_MIN" llongMinLong)
        (.ifElse (.defined "LLONG_BIT")
          (.define "LLONG_MIN" llongMinBit)
          (.define "LLONG_MIN" llongMin64)))
      (.define "LLONG_MAX" llongMaxBody))
    .skip

/-- Lines 17-22: definition of the guard, then `tclConfig.h` (conditionally) and
`tcl.h`. -/
def headerStart : Dir :=
  .seq (.define "_TCLPORT" .empty) (.seq configInclude (.incl "tcl.h"))

/-- Lines 17-43: what is processed when the guard is not yet defined. -/
def headerBody : Dir :=
  .seq headerStart (.seq platformInclude llongFallback)

/-- The whole of `tclPort.h`: `#ifndef _TCLPORT` … `#endif`. -/
def tclPort_h : Dir :=
  .ifElse (.not (.defined "_TCLPORT")) headerBody .skip

/-! ## Values of replacement lists -/

/-- Modelled from the spec: `Tcl_WideInt` is declared in `tcl.h`, which is not
part of the sources. It is a two's-complement integer of `W` bits; a value is
brought into it by taking it modulo `2^W` and reading the result as signed. -/
def wrapWide (W : Nat) (v : Int) : Int :=
  let r := v % (2 : Int) ^ W
  if r < (2 : Int) ^ (W - 1) then r else r - (2 : Int) ^ W

/-- Modelled from the spec: the shift `a << b` whose left operand has type
`Tcl_WideInt` (declared in `tcl.h`, not part of the sources), as it is in both
shifts of the header; it has a value when `0 ≤ b < W`, the product taken modulo
`2^W` and read as signed. -/
def shlWide (W : Nat) (a b : Int) : Option Int :=
  if 0 ≤ b ∧ b < W then some (wrapWide W (a * (2 : Int) ^ b.toNat)) else none

/-- The value of an expression, given the values of the identifiers in it.
`~v` is `-v - 1` on signed integers; `(Tcl_WideInt)(e)` and `Tcl_LongAsWide(e)`
(a definition of `tcl.h`, which is not part of the sources) both convert the
value of `e` to `Tcl_WideInt`; an expression with an operand that has no value
has no value. -/
def evalExpr (W : Nat) (look : String → Option Int) : CExpr → Option Int
  | .lit n => some n
  | .ident n => look n
  | .neg e => (evalExpr W look e).map (fun v => -v)
  | .compl e => (evalExpr W look e).map (fun v => -v - 1)
  | .sub a b => (evalExpr W look a).bind (fun x => (evalExpr W look b).map (fun y => x - y))
  | .shl a b => (evalExpr W look a).bind (fun x => (evalExpr W look b).bind (fun y => shlWide W x y))
  | .castWide e => (evalExpr W look e).map (wrapWide W)
  | .longAsWide e => (evalExpr W look e).map (wrapWide W)

/-- The value a name stands for in configuration `c`, expanding definitions to
nesting depth at most `depth`. A name that is not defined, or is defined with an
empty replacement list, has no value. -/
def value (W : Nat) (c : Config) : Nat → String → Option Int
  | 0, _ => none
  | depth + 1, n =>
    match c n with
    | some (.expr e) => evalExpr W (value W c depth) e
    | _ => none

/-! ## Concrete configurations -/

/-- Included files without any effect on the configuration. -/
def noEffects : FileEffects := fun _ c => c

/-- Included files of a Unix-like host whose `tclUnixPort.h` brings a `limits.h`
with `LONG_MAX` and `LONG_MIN` but no `LLONG_MIN`, and whose `tcl.h` defines
`TCL_WIDE_INT_IS_LONG`. -/
def unixLongEffects : FileEffects := fun f c =>
  if f = "tcl.h" then define c "TCL_WIDE_INT_IS_LONG" (.expr (.lit 1))
  else if f = "tclUnixPort.h" then
    define (define c "LONG_MAX" (.expr (.lit 9223372036854775807)))
      "LONG_MIN" (.expr (.sub (.neg (.ident "LONG_MAX")) (.lit 1)))
  else c

/-- A configuration in which only the guard `_TCLPORT` is defined. -/
def guardSet : Config := define emptyConfig "_TCLPORT" .empty

/-- A configuration in which only `LLONG_BIT` is defined, as `b`. -/
def bitConfig (b : Int) : Config := define emptyConfig "LLONG_BIT" (.expr (.lit b))

/-- A configuration with `TCL_WIDE_INT_IS_LONG`, `LLONG_BIT` and a two's-complement
64-bit `long` (`LONG_MAX`, and `LONG_MIN` written as `(-LONG_MAX - 1)`). -/
def longConfig : Config :=
  define (define (define (define emptyConfig
    "TCL_WIDE_INT_IS_LONG" (.expr (.lit 1)))
    "LLONG_BIT" (.expr (.lit 64)))
    "LONG_MAX" (.expr (.lit 9223372036854775807)))
    "LONG_MIN" (.expr (.sub (.neg (.ident "LONG_MAX")) (.lit 1)))

/-- A configuration in which `limits.h` has already provided both constants. -/
def limitsConfig : Config :=
  define (define emptyConfig
    "LLONG_MAX" (.expr (.lit 9223372036854775807)))
    "LLONG_MIN" (.expr (.sub (.neg (.ident "LLONG_MAX")) (.lit 1)))

/-- A configuration in which `LLONG_MAX` is defined although `LLONG_MIN` is not. -/
def maxOnlyConfig : Config := define emptyConfig "LLONG_MAX" (.expr (.lit 5))

/-- Included files whose `tclUnixPort.h` brings a definition of `LLONG_MIN` but
none of `LLONG_MAX`. -/
def minOnlyEffects : FileEffects := fun f c =>
  if f = "tclUnixPort.h" then define c "LLONG_MIN" (.expr (.lit (-9223372036854775808)))
  else c

end TclPort

namespace IMService

/-! ## The connection state of a service, as documented in
`IMServicePlugInProtocols.h` -/

/-- The four connection states named by the documentation of the protocols. -/
inductive ConnState where
  | Connecting
  | Connected
  | Disconnecting
  | Disconnected
  deriving DecidableEq

/-- The messages of the two protocols: those of `IMServicePlugIn` (host to
plug-in) and those of `IMServiceApplication` (plug-in to host). Their arguments
(settings, error, reconnect flag, handle properties) have no documented effect
on the connection state and are left out. -/
inductive Msg where
  | initWithServiceApplication
  | updateAccountSettings
  | login
  | logout
  | plugInDidLogIn
  | plugInDidLogOutWithError
  | plugInDidFailToAuthenticate
  | plugInDidUpdateProperties
  deriving DecidableEq

/-- Modelled from the spec: the host application that keeps the connection state
is not part of the sources; only the protocol declarations and their
documentation are. The transitions are the documented ones: `-login` shows the
service as Connecting, `-logout` as Disconnecting, `-plugInDidLogIn` changes the
state from Connecting to Connected, `-plugInDidLogOutWithError:reconnect:` changes
it to Disconnected; no other message has a documented effect on the state. -/
def step : ConnState → Msg → ConnState
  | _, .login => .Connecting
  | _, .logout => .Disconnecting
  | .Connecting, .plugInDidLogIn => .Connected
  | _, .plugInDidLogOutWithError => .Disconnected
  | s, _ => s

/-- The state after a sequence of messages, oldest first. -/
def runMsgs (s : ConnState) (ms : List Msg) : ConnState := ms.foldl step s

end IMService

namespace TclPort

/-! ## Basic facts -/

theorem define_same (c : Config) (n : String) (b : Body) : define c n b n = some b := by
  simp [define]

theorem define_other (c : Config) (n k : String) (b : Body) (h : k ≠ n) :
    define c n b k = c k := by
  simp [define, h]

theorem run_fallback_defined (env : FileEffects) (c : Config)
    (h : isDefined c "LLONG_MIN" = true) :
    (run env llongFallback c).config = c ∧ (run env llongFallback c).included = [] := by
  simp [llongFallback, run, Cond.holds, h]

theorem run_fallback_undefined (env : FileEffects) (c : Config)
    (h : isDefined c "LLONG_MIN" = false) :
    (run env llongFallback c).config
        = define (define c "LLONG_MIN" (if isDefined c "TCL_WIDE_INT_IS_LONG" then llongMinLong
          else if isDefined c "LLONG_BIT" then llongMinBit else llongMin64)) "LLONG_MAX" llongMaxBody ∧
      (run env llongFallback c).included = [] := by
  by_cases h1 : isDefined c "TCL_WIDE_INT_IS_LONG" = true
  · simp [llongFallback, run, Cond.holds, h, h1]
  · by_cases h2 : isDefined c "LLONG_BIT" = true
    · simp [llongFallback, run, Cond.holds, h, h1, h2]
    · simp [llongFallback, run, Cond.holds, h, h1, h2]

theorem fallback_max (env : FileEffects) (c : Config)
    (h : isDefined c "LLONG_MIN" = false) :
    (run env llongFallback c).config "LLONG_MAX" = some llongMaxBody := by
  rw [(run_fallback_undefined env c h).1]
  exact define_same _ _ _

theorem fallback_min (env : FileEffects) (c : Config)
    (h : isDefined c "LLONG_MIN" = false) :
    (run env llongFallback c).config "LLONG_MIN" = some (if isDefined c "TCL_WIDE_INT_IS_LONG" then llongMinLong
          else if isDefined c "LLONG_BIT" then llongMinBit else llongMin64) := by
  rw [(run_fallback_undefined env c h).1, define_other _ _ _ _ (by decide)]
  exact define_same _ _ _

theorem fallback_other (env : FileEffects) (c : Config) (k : String)
    (h1 : k ≠ "LLONG_MIN") (h2 : k ≠ "LLONG_MAX") :
    (run env llongFallback c).config k = c k := by
  by_cases h : isDefined c "LLONG_MIN" = true
  · rw [(run_fallback_defined env c h).1]
  · have h0 : isDefined c "LLONG_MIN" = false := by simpa using h
    rw [(run_fallback_undefined env c h0).1, define_other _ _ _ _ h2,
      define_other _ _ _ _ h1]

theorem value_max (env : FileEffects) (c : Config) (W depth : Nat)
    (h : isDefined c "LLONG_MIN" = false) :
    value W (run env llongFallback c).config (depth + 1) "LLONG_MAX"
      = (value W (run env llongFallback c).config depth "LLONG_MIN").map (fun v => -v - 1) := by
  simp [value, fallback_max env c h, llongMaxBody, evalExpr]

/-- On a first inclusion (guard not yet defined) the header is its body: the
start of the header, the platform include, then the fallback. -/
theorem run_header_first (env : FileEffects) (c : Config)
    (h : isDefined c "_TCLPORT" = false) :
    run env tclPort_h c = run env headerBody c := by
  simp [tclPort_h, run, Cond.holds, h]

/-! ## Values do not depend on the depth once they exist -/

theorem evalExpr_mono (W : Nat) (look look2 : String → Option Int)
    (h : ∀ n v, look n = some v → look2 n = some v) (e : CExpr) (v : Int)
    (hv : evalExpr W look e = some v) : evalExpr W look2 e = some v := by
  induction e generalizing v with
  | lit n => simpa [evalExpr] using hv
  | ident n => exact h n v (by simpa [evalExpr] using hv)
  | neg e ih =>
    simp only [evalExpr, Option.map_eq_some'] at hv ⊢
    obtain ⟨a, ha, rfl⟩ := hv
    exact ⟨a, ih a ha, rfl⟩
  | compl e ih =>
    simp only [evalExpr, Option.map_eq_some'] at hv ⊢
    obtain ⟨a, ha, rfl⟩ := hv
    exact ⟨a, ih a ha, rfl⟩
  | sub a b iha ihb =>
    simp only [evalExpr, Option.bind_eq_some, Option.map_eq_some'] at hv ⊢
    obtain ⟨x, hx, y, hy, rfl⟩ := hv
    exact ⟨x, iha x hx, y, ihb y hy, rfl⟩
  | shl a b iha ihb =>
    simp only [evalExpr, Option.bind_eq_some] at hv ⊢
    obtain ⟨x, hx, y, hy, hs⟩ := hv
    exact ⟨x, iha x hx, y, ihb y hy, hs⟩
  | castWide e ih =>
    simp only [evalExpr, Option.map_eq_some'] at hv ⊢
    obtain ⟨a, ha, rfl⟩ := hv
    exact ⟨a, ih a ha, rfl⟩
  | longAsWide e ih =>
    simp only [evalExpr, Option.map_eq_some'] at hv ⊢
    obtain ⟨a, ha, rfl⟩ := hv
    exact ⟨a, ih a ha, rfl⟩

theorem value_succ (W : Nat) (c : Config) (depth : Nat) (n : String) (v : Int)
    (h : value W c depth n = some v) : value W c (depth + 1) n = some v := by
  induction depth generalizing n v with
  | zero => simp [value] at h
  | succ d ih =>
    rw [value] at h ⊢
    cases hc : c n with
    | none => simp [hc] at h
    | some b =>
      cases b with
      | empty => simp [hc] at h
      | expr e =>
        simp only [hc] at h ⊢
        exact evalExpr_mono W _ _ (fun k w hk => ih k w hk) e v h

theorem value_mono (W : Nat) (c : Config) (d d2 : Nat) (n : String) (v : Int)
    (hd : d ≤ d2) (h : value W c d n = some v) : value W c d2 n = some v := by
  induction hd with
  | refl => exact h
  | step _ ih => exact value_succ W c _ n v ih

/-! ## The fallback block (lines 30-43) -/

/-- C2: for every configuration reaching the fallback block in which `LLONG_MIN` is
defined, the block leaves the configuration as it is (it defines nothing and
includes nothing); in particular `LLONG_MIN` and `LLONG_MAX` are defined after it
exactly when they were before, with the same replacement list and the same
value, whatever `TCL_WIDE_INT_IS_LONG` and `LLONG_BIT` are. -/
theorem fallback_keeps_defined (env : FileEffects) (c : Config)
    (hmin : isDefined c "LLONG_MIN" = true) :
    (run env llongFallback c).config = c ∧
    (run env llongFallback c).included = [] ∧
    (run env llongFallback c).config "LLONG_MIN" = c "LLONG_MIN" ∧
    (run env llongFallback c).config "LLONG_MAX" = c "LLONG_MAX" ∧
    (∀ W depth n, value W (run env llongFallback c).config depth n = value W c depth n) := by
  have h := run_fallback_defined env c hmin
  refine ⟨h.1, h.2, by rw [h.1], by rw [h.1], fun W depth n => by rw [h.1]⟩

/-- Witness for C2: `limits.h` has provided both constants, and the block
changes neither. -/
theorem fallback_keeps_defined_witness :
    isDefined limitsConfig "LLONG_MIN" = true ∧
    (run noEffects llongFallback limitsConfig).config "LLONG_MIN" = limitsConfig "LLONG_MIN" ∧
    (run noEffects llongFallback limitsConfig).config "LLONG_MAX" = limitsConfig "LLONG_MAX" :=
  ⟨by decide, (fallback_keeps_defined noEffects limitsConfig (by decide)).2.2.1,
    (fallback_keeps_defined noEffects limitsConfig (by decide)).2.2.2.1⟩

/-- The replacement list of line 38 in a 64-bit `Tcl_WideInt`. -/
theorem evalExpr_min64 (look : String → Option Int) :
    evalExpr 64 look (.castWide (.shl (.longAsWide (.lit 1)) (.lit 63)))
      = some (-9223372036854775808) := by
  rfl

/-- C3: when `LLONG_MIN`, `TCL_WIDE_INT_IS_LONG` and `LLONG_BIT` are all undefined at
the fallback block and `Tcl_WideInt` has 64 bits, `LLONG_MIN` has the value
`-2^63 = -9223372036854775808` and `LLONG_MAX` the value
`2^63 - 1 = 9223372036854775807` (at every expansion depth that reaches them). -/
theorem fallback_default_values (env : FileEffects) (c : Config) (depth : Nat)
    (hmin : isDefined c "LLONG_MIN" = false)
    (hlong : isDefined c "TCL_WIDE_INT_IS_LONG" = false)
    (hbit : isDefined c "LLONG_BIT" = false) :
    (run env llongFallback c).config "LLONG_MIN" = some llongMin64 ∧
    value 64 (run env llongFallback c).config (depth + 1) "LLONG_MIN"
      = some (-9223372036854775808) ∧
    value 64 (run env llongFallback c).config (depth + 2) "LLONG_MAX"
      = some 9223372036854775807 ∧
    (-9223372036854775808 : Int) = -(2 : Int) ^ 63 ∧
    (9223372036854775807 : Int) = (2 : Int) ^ 63 - 1 := by
  have h1 : (run env llongFallback c).config "LLONG_MIN" = some llongMin64 := by
    rw [fallback_min env c hmin]; simp [hlong, hbit]
  have h2 : value 64 (run env llongFallback c).config (depth + 1) "LLONG_MIN"
      = some (-9223372036854775808) := by
    rw [value, h1]
    exact evalExpr_min64 _
  refine ⟨h1, h2, ?_, by norm_num, by norm_num⟩
  rw [value_max env c 64 (depth + 1) hmin, h2]
  rfl

/-- Witness for C3: nothing at all is defined on entry. -/
theorem fallback_default_values_witness :
    isDefined emptyConfig "LLONG_MIN" = false ∧
    isDefined emptyConfig "TCL_WIDE_INT_IS_LONG" = false ∧
    isDefined emptyConfig "LLONG_BIT" = false ∧
    value 64 (run noEffects llongFallback emptyConfig).config 1 "LLONG_MIN"
      = some (-9223372036854775808) ∧
    value 64 (run noEffects llongFallback emptyConfig).config 2 "LLONG_MAX"
      = some 9223372036854775807 :=
  ⟨by decide, by decide, by decide,
    (fallback_default_values noEffects emptyConfig 0 (by decide) (by decide) (by decide)).2.1,
    (fallback_default_values noEffects emptyConfig 0 (by decide) (by decide) (by decide)).2.2.1⟩

/-- C7: when `LLONG_MIN` is undefined and `TCL_WIDE_INT_IS_LONG` is defined at the
fallback block, `LLONG_MIN` is defined as `LONG_MIN`, whether or not `LLONG_BIT`
is defined; and when `LONG_MAX` has a value and `LONG_MIN` has the value
`-LONG_MAX - 1`, then `LLONG_MAX`, that is `~LONG_MIN`, has the value of
`LONG_MAX`. -/
theorem fallback_long_branch (env : FileEffects) (c : Config)
    (hmin : isDefined c "LLONG_MIN" = false)
    (hlong : isDefined c "TCL_WIDE_INT_IS_LONG" = true) :
    (run env llongFallback c).config "LLONG_MIN" = some llongMinLong ∧
    (run env llongFallback c).config "LLONG_MAX" = some llongMaxBody ∧
    (∀ (W depth : Nat) (lmax : Int),
      value W (run env llongFallback c).config depth "LONG_MAX" = some lmax →
      value W (run env llongFallback c).config depth "LONG_MIN" = some (-lmax - 1) →
      value W (run env llongFallback c).config (depth + 1) "LLONG_MIN" = some (-lmax - 1) ∧
      value W (run env llongFallback c).config (depth + 2) "LLONG_MAX"
        = value W (run env llongFallback c).config depth "LONG_MAX") := by
  have h1 : (run env llongFallback c).config "LLONG_MIN" = some llongMinLong := by
    rw [fallback_min env c hmin]; simp [hlong]
  refine ⟨h1, fallback_max env c hmin, ?_⟩
  intro W depth lmax hmaxv hminv
  have h2 : value W (run env llongFallback c).config (depth + 1) "LLONG_MIN"
      = some (-lmax - 1) := by
    rw [value, h1]
    simpa [llongMinLong, evalExpr] using hminv
  refine ⟨h2, ?_⟩
  rw [value_max env c W (depth + 1) hmin, h2, hmaxv]
  simp

/-- Witness for C7: `TCL_WIDE_INT_IS_LONG` and `LLONG_BIT` both defined, `long` of
64 bits. -/
theorem fallback_long_branch_witness :
    isDefined longConfig "LLONG_MIN" = false ∧
    isDefined longConfig "TCL_WIDE_INT_IS_LONG" = true ∧
    isDefined longConfig "LLONG_BIT" = true ∧
    (run noEffects llongFallback longConfig).config "LLONG_MIN" = some llongMinLong ∧
    value 64 (run noEffects llongFallback longConfig).config 4 "LLONG_MAX"
      = value 64 (run noEffects llongFallback longConfig).config 2 "LONG_MAX" ∧
    value 64 (run noEffects llongFallback longConfig).config 2 "LONG_MAX"
      = some 9223372036854775807 :=
  ⟨by decide, by decide, by decide,
    (fallback_long_branch noEffects longConfig (by decide) (by decide)).1,
    ((fallback_long_branch noEffects longConfig (by decide) (by decide)).2.2
      64 2 9223372036854775807 (by decide) (by decide)).2,
    by decide⟩

/-- C8: for every configuration that takes the fallback path, in each of the three
branches the two constants are produced and sum to `-1`. `LLONG_MAX` has a
value exactly when `LLONG_MIN` has one, and then the two values `lo` and `hi`
satisfy `lo + hi = -1`, that is `hi = -lo - 1`, and `lo < 0 ≤ hi` whenever `lo` is
negative. The constants exist: in the `LONG_MIN` branch whenever `LONG_MIN` has a
value (and `LLONG_MIN` has that value); in the `LLONG_BIT` branch whenever
`LLONG_BIT` has a value `b` with `1 ≤ b ≤ W`; in the default branch whenever
`Tcl_WideInt` has at least 64 bits. -/
theorem fallback_min_plus_max (env : FileEffects) (c : Config) (W : Nat)
    (hmin : isDefined c "LLONG_MIN" = false) :
    (∀ depth, (value W (run env llongFallback c).config (depth + 1) "LLONG_MAX").isSome
      = (value W (run env llongFallback c).config depth "LLONG_MIN").isSome) ∧
    (∀ depth lo, value W (run env llongFallback c).config depth "LLONG_MIN" = some lo →
      ∃ hi, value W (run env llongFallback c).config (depth + 1) "LLONG_MAX" = some hi ∧
        lo + hi = -1 ∧ hi = -lo - 1 ∧ (lo < 0 → lo < 0 ∧ 0 ≤ hi)) ∧
    (isDefined c "TCL_WIDE_INT_IS_LONG" = true →
      ∀ depth v, value W (run env llongFallback c).config depth "LONG_MIN" = some v →
        value W (run env llongFallback c).config (depth + 1) "LLONG_MIN" = some v ∧
        value W (run env llongFallback c).config (depth + 2) "LLONG_MAX" = some (-v - 1)) ∧
    (isDefined c "TCL_WIDE_INT_IS_LONG" = false → isDefined c "LLONG_BIT" = true →
      ∀ depth b, value W (run env llongFallback c).config depth "LLONG_BIT" = some b →
        1 ≤ b → b ≤ W →
        value W (run env llongFallback c).config (depth + 1) "LLONG_MIN"
          = some (wrapWide W (wrapWide W (wrapWide W 1 * (2 : Int) ^ (b - 1).toNat))) ∧
        value W (run env llongFallback c).config (depth + 2) "LLONG_MAX"
          = some (-(wrapWide W (wrapWide W (wrapWide W 1 * (2 : Int) ^ (b - 1).toNat))) - 1)) ∧
    (isDefined c "TCL_WIDE_INT_IS_LONG" = false → isDefined c "LLONG_BIT" = false →
      64 ≤ W → ∀ depth,
        value W (run env llongFallback c).config (depth + 1) "LLONG_MIN"
          = some (wrapWide W (wrapWide W (wrapWide W 1 * (2 : Int) ^ 63))) ∧
        value W (run env llongFallback c).config (depth + 2) "LLONG_MAX"
          = some (-(wrapWide W (wrapWide W (wrapWide W 1 * (2 : Int) ^ 63))) - 1)) := by
  have hM := fallback_min env c hmin
  refine ⟨?_, ?_, ?_, ?_, ?_⟩
  · intro depth
    rw [value_max env c W depth hmin]
    simp
  · intro depth lo hlo
    refine ⟨-lo - 1, ?_, by ring, rfl, fun h => ⟨h, by omega⟩⟩
    rw [value_max env c W depth hmin, hlo]
    rfl
  · intro hlong depth v hv
    have h1 : value W (run env llongFallback c).config (depth + 1) "LLONG_MIN" = some v := by
      rw [value, hM]
      simpa [hlong, llongMinLong, evalExpr] using hv
    refine ⟨h1, ?_⟩
    rw [value_max env c W (depth + 1) hmin, h1]
    rfl
  · intro hlong hbit depth b hb hb1 hbW
    have hc : 0 ≤ b - 1 ∧ b - 1 < (W : Int) := by omega
    have h1 : value W (run env llongFallback c).config (depth + 1) "LLONG_MIN"
        = some (wrapWide W (wrapWide W (wrapWide W 1 * (2 : Int) ^ (b - 1).toNat))) := by
      rw [value, hM]
      simp [hlong, hbit, llongMinBit, evalExpr, hb, shlWide, hc]
    refine ⟨h1, ?_⟩
    rw [value_max env c W (depth + 1) hmin, h1]
    rfl
  · intro hlong hbit hW depth
    have hc : (63 : Int) < (W : Int) := by omega
    have h1 : value W (run env llongFallback c).config (depth + 1) "LLONG_MIN"
        = some (wrapWide W (wrapWide W (wrapWide W 1 * (2 : Int) ^ 63))) := by
      rw [value, hM]
      simp [hlong, hbit, llongMin64, evalExpr, shlWide, hc]
    refine ⟨h1, ?_⟩
    rw [value_max env c W (depth + 1) hmin, h1]
    rfl

/-- Witness for C8: the three branches with a 64-bit `long` and a 64-bit
`Tcl_WideInt`; in each, `LLONG_MIN` is `-2^63`, `LLONG_MAX` is `2^63 - 1`, and they
sum to `-1`. -/
theorem fallback_min_plus_max_witness :
    (isDefined longConfig "LLONG_MIN" = false ∧
      isDefined longConfig "TCL_WIDE_INT_IS_LONG" = true ∧
      value 64 (run noEffects llongFallback longConfig).config 3 "LLONG_MIN"
        = some (-9223372036854775808) ∧
      value 64 (run noEffects llongFallback longConfig).config 4 "LLONG_MAX"
        = some 9223372036854775807) ∧
    (isDefined (bitConfig 64) "LLONG_MIN" = false ∧
      isDefined (bitConfig 64) "LLONG_BIT" = true ∧
      value 64 (run noEffects llongFallback (bitConfig 64)).config 2 "LLONG_MIN"
        = some (-9223372036854775808) ∧
      value 64 (run noEffects llongFallback (bitConfig 64)).config 3 "LLONG_MAX"
        = some 9223372036854775807) ∧
    (isDefined emptyConfig "LLONG_MIN" = false ∧
      value 64 (run noEffects llongFallback emptyConfig).config 1 "LLONG_MIN"
        = some (-9223372036854775808) ∧
      value 64 (run noEffects llongFallback emptyConfig).config 2 "LLONG_MAX"
        = some 9223372036854775807) ∧
    (∃ hi, value 64 (run noEffects llongFallback emptyConfig).config 2 "LLONG_MAX" = some hi ∧
      -9223372036854775808 + hi = -1 ∧ hi = - -9223372036854775808 - 1 ∧
      ((-9223372036854775808 : Int) < 0 → (-9223372036854775808 : Int) < 0 ∧ 0 ≤ hi)) :=
  ⟨⟨by decide, by decide,
      (fallback_min_plus_max noEffects longConfig 64 (by decide)).2.2.1 (by decide) 2
        (-9223372036854775808) (by decide)⟩,
    ⟨by decide, by decide,
      (fallback_min_plus_max noEffects (bitConfig 64) 64 (by decide)).2.2.2.1
        (by decide) (by decide) 1 64 (by decide) (by decide) (by decide)⟩,
    ⟨by decide,
      (fallback_min_plus_max noEffects emptyConfig 64 (by decide)).2.2.2.2
        (by decide) (by decide) (by decide) 0⟩,
    (fallback_min_plus_max noEffects emptyConfig 64 (by decide)).2.1 1
      (-9223372036854775808) (by decide)⟩

/-! ## The `LLONG_BIT` branch -/

theorem wrapWide_of_range (k : Nat) (v : Int) (hlo : -(2 : Int) ^ k ≤ v)
    (hhi : v < (2 : Int) ^ k) : wrapWide (k + 1) v = v := by
  have hP : (0 : Int) < 2 ^ k := by positivity
  have h2 : (2 : Int) ^ (k + 1) = 2 * 2 ^ k := by ring
  simp only [wrapWide, Nat.add_sub_cancel, h2]
  generalize (2 : Int) ^ k = P at *
  by_cases hv : 0 ≤ v
  · have h : v % (2 * P) = v := Int.emod_eq_of_lt hv (by omega)
    rw [h, if_pos hhi]
  · have h : v % (2 * P) = v + 2 * P := by
      have h3 := Int.emod_eq_of_lt (a := v + 2 * P) (b := 2 * P) (by omega) (by omega)
      rwa [Int.add_emod_self] at h3
    rw [h, if_neg (by omega)]
    omega

theorem wrapWide_half (k : Nat) : wrapWide (k + 1) ((2 : Int) ^ k) = -(2 : Int) ^ k := by
  have hP : (0 : Int) < 2 ^ k := by positivity
  have h2 : (2 : Int) ^ (k + 1) = 2 * 2 ^ k := by ring
  simp only [wrapWide, Nat.add_sub_cancel, h2]
  generalize (2 : Int) ^ k = P at *
  have h : P % (2 * P) = P := Int.emod_eq_of_lt (by omega) (by omega)
  rw [h, if_neg (by omega)]
  omega

/-- The replacement list of line 35 for `LLONG_BIT = w` in a `Tcl_WideInt` of `W`
bits: the sign bit is reached only when `w = W`. -/
theorem shift_one (W w : Nat) (h1 : 1 ≤ w) (h2 : w ≤ W) :
    (shlWide W (wrapWide W 1) ((w : Int) - 1)).map (wrapWide W)
      = some (if w = W then -(2 : Int) ^ (w - 1) else (2 : Int) ^ (w - 1)) := by
  obtain ⟨k, rfl⟩ : ∃ k, W = k + 1 := ⟨W - 1, by omega⟩
  obtain ⟨j, rfl⟩ : ∃ j, w = j + 1 := ⟨w - 1, by omega⟩
  have hj : j ≤ k := by omega
  have hc : (0 : Int) ≤ ((j + 1 : Nat) : Int) - 1 ∧ ((j + 1 : Nat) : Int) - 1 < ((k + 1 : Nat) : Int) := by
    constructor <;> push_cast <;> omega
  have ht : (((j + 1 : Nat) : Int) - 1).toNat = j := by push_cast; omega
  simp only [shlWide, if_pos hc, ht, Option.map_some', Nat.add_sub_cancel]
  have hPj : (0 : Int) < 2 ^ j := by positivity
  have hPk : (0 : Int) < 2 ^ k := by positivity
  by_cases hk : k = 0
  · subst hk
    have hj0 : j = 0 := by omega
    subst hj0
    decide
  · have hone : (1 : Int) < 2 ^ k := by
      have : (2 : Int) ^ 1 ≤ 2 ^ k := pow_le_pow_right₀ (by norm_num) (by omega)
      omega
    have hw1 : wrapWide (k + 1) 1 = 1 := wrapWide_of_range k 1 (by omega) hone
    rw [hw1, one_mul]
    by_cases hjk : j = k
    · subst hjk
      rw [wrapWide_half, wrapWide_of_range j _ (le_refl _) (by omega)]
      simp
    · have hlt : (2 : Int) ^ j < 2 ^ k := pow_lt_pow_right₀ (by norm_num) (by omega)
      rw [wrapWide_of_range k _ (by omega) hlt, wrapWide_of_range k _ (by omega) hlt]
      have hne : ¬ (j + 1 = k + 1) := by omega
      simp [hne]

/-- C6 fails as stated: with `LLONG_BIT` defined as 32 and a 64-bit `Tcl_WideInt`,
`LLONG_MIN` has the value `2147483648 = 2^31`, not `-2^31`, at every depth at which
it has one, and `LLONG_MAX` has the value `-2147483649`, not `2^31 - 1`. -/
theorem fallback_bit32_counterexample :
    isDefined (bitConfig 32) "LLONG_MIN" = false ∧
    isDefined (bitConfig 32) "TCL_WIDE_INT_IS_LONG" = false ∧
    bitConfig 32 "LLONG_BIT" = some (.expr (.lit 32)) ∧
    value 64 (run noEffects llongFallback (bitConfig 32)).config 2 "LLONG_MIN"
      = some 2147483648 ∧
    value 64 (run noEffects llongFallback (bitConfig 32)).config 3 "LLONG_MAX"
      = some (-2147483649) ∧
    (¬ ∃ depth, value 64 (run noEffects llongFallback (bitConfig 32)).config depth "LLONG_MIN"
      = some (-(2 : Int) ^ (32 - 1))) ∧
    (¬ ∃ depth, value 64 (run noEffects llongFallback (bitConfig 32)).config depth "LLONG_MAX"
      = some ((2 : Int) ^ (32 - 1) - 1)) := by
  have hmin : value 64 (run noEffects llongFallback (bitConfig 32)).config 2 "LLONG_MIN"
      = some 2147483648 := by decide
  have hmax : value 64 (run noEffects llongFallback (bitConfig 32)).config 3 "LLONG_MAX"
      = some (-2147483649) := by decide
  refine ⟨by decide, by decide, by decide, hmin, hmax, ?_, ?_⟩
  · rintro ⟨d, hd⟩
    have a := value_mono 64 _ d (max d 2) _ _ (le_max_left d 2) hd
    have b := value_mono 64 _ 2 (max d 2) _ _ (le_max_right d 2) hmin
    rw [a] at b
    norm_num at b
  · rintro ⟨d, hd⟩
    have a := value_mono 64 _ d (max d 3) _ _ (le_max_left d 3) hd
    have b := value_mono 64 _ 3 (max d 3) _ _ (le_max_right d 3) hmax
    rw [a] at b
    norm_num at b

/-- C6, amended: in the `LLONG_BIT` branch (`LLONG_MIN` and `TCL_WIDE_INT_IS_LONG`
undefined, `LLONG_BIT` defined as `w`) with a `Tcl_WideInt` of `W` bits and
`1 ≤ w ≤ W`, the constants are the minimum and maximum of a `w`-bit signed integer
exactly when `w = W`: then `LLONG_MIN = -2^(w-1)` and `LLONG_MAX = 2^(w-1) - 1`;
for `w < W` they are `LLONG_MIN = 2^(w-1)` and `LLONG_MAX = -2^(w-1) - 1`. -/
theorem fallback_bit_branch (env : FileEffects) (c : Config) (W w depth : Nat)
    (hmin : isDefined c "LLONG_MIN" = false)
    (hlong : isDefined c "TCL_WIDE_INT_IS_LONG" = false)
    (hbit : c "LLONG_BIT" = some (.expr (.lit (w : Int))))
    (h1 : 1 ≤ w) (h2 : w ≤ W) :
    (run env llongFallback c).config "LLONG_MIN" = some llongMinBit ∧
    value W (run env llongFallback c).config (depth + 2) "LLONG_MIN"
      = some (if w = W then -(2 : Int) ^ (w - 1) else (2 : Int) ^ (w - 1)) ∧
    value W (run env llongFallback c).config (depth + 3) "LLONG_MAX"
      = some (if w = W then (2 : Int) ^ (w - 1) - 1 else -(2 : Int) ^ (w - 1) - 1) := by
  have hb : isDefined c "LLONG_BIT" = true := by simp [isDefined, hbit]
  have hm : (run env llongFallback c).config "LLONG_MIN" = some llongMinBit := by
    rw [fallback_min env c hmin]; simp [hlong, hb]
  have hB : value W (run env llongFallback c).config (depth + 1) "LLONG_BIT"
      = some (w : Int) := by
    rw [value, fallback_other env c _ (by decide) (by decide), hbit]
    rfl
  have hv : value W (run env llongFallback c).config (depth + 2) "LLONG_MIN"
      = some (if w = W then -(2 : Int) ^ (w - 1) else (2 : Int) ^ (w - 1)) := by
    rw [value, hm]
    simp only [llongMinBit, evalExpr, hB, Option.map_some', Option.some_bind]
    exact shift_one W w h1 h2
  refine ⟨hm, hv, ?_⟩
  rw [value_max env c W (depth + 2) hmin, hv]
  by_cases hw : w = W
  · simp [hw]
  · simp [hw]

/-- Witness for C6 as amended: `LLONG_BIT` is 64 in a 64-bit `Tcl_WideInt`. -/
theorem fallback_bit_branch_witness :
    isDefined (bitConfig 64) "LLONG_MIN" = false ∧
    isDefined (bitConfig 64) "TCL_WIDE_INT_IS_LONG" = false ∧
    bitConfig 64 "LLONG_BIT" = some (.expr (.lit ((64 : Nat) : Int))) ∧
    value 64 (run noEffects llongFallback (bitConfig 64)).config 2 "LLONG_MIN"
      = some (if 64 = 64 then -(2 : Int) ^ (64 - 1) else (2 : Int) ^ (64 - 1)) ∧
    value 64 (run noEffects llongFallback (bitConfig 64)).config 3 "LLONG_MAX"
      = some (if 64 = 64 then (2 : Int) ^ (64 - 1) - 1 else -(2 : Int) ^ (64 - 1) - 1) :=
  ⟨by decide, by decide, by decide,
    (fallback_bit_branch noEffects (bitConfig 64) 64 64 0 (by decide) (by decide)
      (by decide) (by decide) (by decide)).2.1,
    (fallback_bit_branch noEffects (bitConfig 64) 64 64 0 (by decide) (by decide)
      (by decide) (by decide) (by decide)).2.2⟩

/-! ## The whole header: guard and includes -/

theorem run_seq (env : FileEffects) (a b : Dir) (c : Config) :
    run env (.seq a b) c
      = ⟨(run env b (run env a c).config).config,
          (run env a c).included ++ (run env b (run env a c).config).included⟩ := rfl

theorem run_fallback_included (env : FileEffects) (k : Config) :
    (run env llongFallback k).included = [] := by
  by_cases h : isDefined k "LLONG_MIN" = true
  · exact (run_fallback_defined env k h).2
  · exact (run_fallback_undefined env k (by simpa using h)).2

theorem run_platform_included (env : FileEffects) (k : Config) :
    (run env platformInclude k).included
      = [if isDefined k "__WIN32__" = true then "tclWinPort.h" else "tclUnixPort.h"] := by
  by_cases h : isDefined k "__WIN32__" = true <;> simp [platformInclude, run, Cond.holds, h]

theorem run_start_included (env : FileEffects) (k : Config) :
    (run env headerStart k).included
      = (if isDefined (define k "_TCLPORT" .empty) "HAVE_TCL_CONFIG_H" = true
          then ["tclConfig.h"] else []) ++ ["tcl.h"] := by
  by_cases h : isDefined (define k "_TCLPORT" .empty) "HAVE_TCL_CONFIG_H" = true <;>
    simp [headerStart, configInclude, run, Cond.holds, h]

theorem run_header_guarded (env : FileEffects) (k : Config)
    (h : isDefined k "_TCLPORT" = true) :
    (run env tclPort_h k).config = k ∧ (run env tclPort_h k).included = [] := by
  simp [tclPort_h, run, Cond.holds, h]

/-- No directive of the header removes a definition: a name that is defined stays
defined, provided the included files leave it defined. -/
theorem run_keeps_defined (env : FileEffects) (n : String)
    (henv : ∀ f k, isDefined k n = true → isDefined (env f k) n = true)
    (d : Dir) (k : Config) (h : isDefined k n = true) :
    isDefined (run env d k).config n = true := by
  induction d generalizing k with
  | define m b =>
    simp only [run, isDefined, define]
    by_cases e : n = m
    · simp [e]
    · simpa [e, isDefined] using h
  | incl f => exact henv f k h
  | ifElse q t e iht ihe =>
    simp only [run]
    by_cases hq : q.holds k = true
    · simpa [hq] using iht k h
    · simpa [hq] using ihe k h
  | seq a b iha ihb => exact ihb _ (iha k h)
  | skip => exact h

/-- On a first inclusion the configuration after the header is the one the
fallback block produces from the configuration that reaches line 30. -/
theorem header_config_first (env : FileEffects) (c : Config)
    (h : isDefined c "_TCLPORT" = false) :
    (run env tclPort_h c).config
      = (run env llongFallback
          (run env platformInclude (run env headerStart c).config).config).config := by
  rw [run_header_first env c h, headerBody, run_seq, run_seq]

/-- C1 fails as stated for the header as a whole. With the guard `_TCLPORT`
defined, `LLONG_MIN` is undefined on entry and both constants are still undefined
on exit; and on a first inclusion whose `tclUnixPort.h` defines `LLONG_MIN` only,
`LLONG_MIN` is undefined on entry and `LLONG_MAX` is undefined on exit. -/
theorem header_min_max_counterexample :
    (isDefined guardSet "LLONG_MIN" = false ∧
      isDefined (run noEffects tclPort_h guardSet).config "LLONG_MIN" = false ∧
      isDefined (run noEffects tclPort_h guardSet).config "LLONG_MAX" = false) ∧
    (isDefined emptyConfig "_TCLPORT" = false ∧
      isDefined emptyConfig "LLONG_MIN" = false ∧
      isDefined (run minOnlyEffects tclPort_h emptyConfig).config "LLONG_MIN" = true ∧
      isDefined (run minOnlyEffects tclPort_h emptyConfig).config "LLONG_MAX" = false) := by
  decide

/-- C1, amended: for every configuration in which the guard `_TCLPORT` is not
defined on entry and `LLONG_MIN` is not defined where line 30 tests it (after the
included files have been read), both `LLONG_MIN` and `LLONG_MAX` are defined after
the header: `LLONG_MIN` with the replacement list of the branch that
`TCL_WIDE_INT_IS_LONG` and `LLONG_BIT` select at line 30, and `LLONG_MAX` as
`(~LLONG_MIN)`, so that its value is the bitwise complement of the value of
`LLONG_MIN`; nothing is assumed about `LLONG_MAX`. -/
theorem header_defines_min_and_max (env : FileEffects) (c : Config)
    (hguard : isDefined c "_TCLPORT" = false)
    (hmin : isDefined (run env platformInclude (run env headerStart c).config).config
      "LLONG_MIN" = false) :
    isDefined (run env tclPort_h c).config "LLONG_MIN" = true ∧
    isDefined (run env tclPort_h c).config "LLONG_MAX" = true ∧
    (run env tclPort_h c).config "LLONG_MIN"
      = some (if isDefined (run env platformInclude (run env headerStart c).config).config
            "TCL_WIDE_INT_IS_LONG" = true
          then .expr (.ident "LONG_MIN")
          else if isDefined (run env platformInclude (run env headerStart c).config).config
            "LLONG_BIT" = true
          then .expr (.castWide (.shl (.longAsWide (.lit 1))
            (.sub (.ident "LLONG_BIT") (.lit 1))))
          else .expr (.castWide (.shl (.longAsWide (.lit 1)) (.lit 63)))) ∧
    (run env tclPort_h c).config "LLONG_MAX" = some (.expr (.compl (.ident "LLONG_MIN"))) ∧
    (∀ W depth, value W (run env tclPort_h c).config (depth + 1) "LLONG_MAX"
      = (value W (run env tclPort_h c).config depth "LLONG_MIN").map (fun v => -v - 1)) := by
  rw [header_config_first env c hguard]
  have h1 := fallback_min env _ hmin
  have h2 := fallback_max env _ hmin
  refine ⟨by simp [isDefined, h1], by simp [isDefined, h2], ?_, h2,
    fun W depth => value_max env _ W depth hmin⟩
  rw [h1]
  rfl

/-- Witness for C1 as amended: a first inclusion with `LLONG_MAX` defined on entry
and `LLONG_MIN` not. -/
theorem header_defines_min_and_max_witness :
    isDefined maxOnlyConfig "_TCLPORT" = false ∧
    isDefined maxOnlyConfig "LLONG_MAX" = true ∧
    isDefined (run noEffects platformInclude (run noEffects headerStart maxOnlyConfig).config).config
      "LLONG_MIN" = false ∧
    isDefined (run noEffects tclPort_h maxOnlyConfig).config "LLONG_MIN" = true ∧
    (run noEffects tclPort_h maxOnlyConfig).config "LLONG_MAX"
      = some (.expr (.compl (.ident "LLONG_MIN"))) ∧
    value 64 (run noEffects tclPort_h maxOnlyConfig).config 2 "LLONG_MAX"
      = (value 64 (run noEffects tclPort_h maxOnlyConfig).config 1 "LLONG_MIN").map
          (fun v => -v - 1) :=
  ⟨by decide, by decide, by decide,
    (header_defines_min_and_max noEffects maxOnlyConfig (by decide) (by decide)).1,
    (header_defines_min_and_max noEffects maxOnlyConfig (by decide) (by decide)).2.2.2.1,
    (header_defines_min_and_max noEffects maxOnlyConfig (by decide) (by decide)).2.2.2.2 64 1⟩

/-- C4 fails as stated: in a configuration in which the guard `_TCLPORT` is defined
(and `__WIN32__` is not), the header includes neither `tclWinPort.h` nor
`tclUnixPort.h`. -/
theorem platform_include_guard_counterexample :
    isDefined guardSet "_TCLPORT" = true ∧
    isDefined guardSet "__WIN32__" = false ∧
    (run noEffects tclPort_h guardSet).included = [] ∧
    "tclWinPort.h" ∉ (run noEffects tclPort_h guardSet).included ∧
    "tclUnixPort.h" ∉ (run noEffects tclPort_h guardSet).included := by
  decide

/-- C4, amended: for every configuration in which the guard `_TCLPORT` is not
defined on entry, the header includes exactly one of `tclWinPort.h` and
`tclUnixPort.h`, after the files included by lines 19-22 and as its last include:
`tclWinPort.h` if and only if `__WIN32__` is defined where line 24 tests it (after
`tclConfig.h` and `tcl.h` have been read), `tclUnixPort.h` otherwise; when those
files leave `__WIN32__` alone, that is if and only if `__WIN32__` is defined on
entry. -/
theorem platform_include_first (env : FileEffects) (c : Config)
    (hguard : isDefined c "_TCLPORT" = false) :
    (run env tclPort_h c).included
      = (run env headerStart c).included ++
        [if isDefined (run env headerStart c).config "__WIN32__" = true
          then "tclWinPort.h" else "tclUnixPort.h"] ∧
    ("tclWinPort.h" ∈ (run env tclPort_h c).included ↔
      isDefined (run env headerStart c).config "__WIN32__" = true) ∧
    ("tclUnixPort.h" ∈ (run env tclPort_h c).included ↔
      isDefined (run env headerStart c).config "__WIN32__" = false) ∧
    List.count "tclWinPort.h" (run env tclPort_h c).included
      + List.count "tclUnixPort.h" (run env tclPort_h c).included = 1 ∧
    ((∀ f k, isDefined (env f k) "__WIN32__" = isDefined k "__WIN32__") →
      isDefined (run env headerStart c).config "__WIN32__" = isDefined c "__WIN32__") := by
  have hI : (run env tclPort_h c).included
      = (run env headerStart c).included ++
        [if isDefined (run env headerStart c).config "__WIN32__" = true
          then "tclWinPort.h" else "tclUnixPort.h"] := by
    rw [run_header_first env c hguard, headerBody, run_seq, run_seq]
    simp only [run_platform_included, run_fallback_included, List.append_nil]
  refine ⟨hI, ?_, ?_, ?_, ?_⟩
  · rw [hI, run_start_included]
    by_cases a : isDefined (define c "_TCLPORT" .empty) "HAVE_TCL_CONFIG_H" = true <;>
      by_cases b : isDefined (run env headerStart c).config "__WIN32__" = true <;>
      simp [a, b]
  · rw [hI, run_start_included]
    by_cases a : isDefined (define c "_TCLPORT" .empty) "HAVE_TCL_CONFIG_H" = true <;>
      by_cases b : isDefined (run env headerStart c).config "__WIN32__" = true <;>
      simp [a, b]
  · rw [hI, run_start_included]
    by_cases a : isDefined (define c "_TCLPORT" .empty) "HAVE_TCL_CONFIG_H" = true <;>
      by_cases b : isDefined (run env headerStart c).config "__WIN32__" = true <;>
      simp [a, b]
  · intro henv
    have hd : isDefined (define c "_TCLPORT" .empty) "__WIN32__" = isDefined c "__WIN32__" := by
      simp [isDefined, define]
    by_cases a : isDefined (define c "_TCLPORT" .empty) "HAVE_TCL_CONFIG_H" = true <;>
      simp [headerStart, configInclude, run, Cond.holds, a, henv, hd]

/-- Witness for C4 as amended: a first inclusion on a Unix-like host. -/
theorem platform_include_first_witness :
    isDefined emptyConfig "_TCLPORT" = false ∧
    (run unixLongEffects tclPort_h emptyConfig).included = ["tcl.h", "tclUnixPort.h"] ∧
    List.count "tclWinPort.h" (run unixLongEffects tclPort_h emptyConfig).included
      + List.count "tclUnixPort.h" (run unixLongEffects tclPort_h emptyConfig).included = 1 :=
  ⟨by decide, by decide,
    (platform_include_first unixLongEffects emptyConfig (by decide)).2.2.2.1⟩

/-- C9: processing the header in a configuration in which `_TCLPORT` is defined
includes no file and leaves the configuration as it is; and, the included files
not removing the definition of `_TCLPORT`, the guard is defined after an
inclusion from any configuration, so that a second inclusion changes nothing:
the configuration after two inclusions is the configuration after one. -/
theorem include_guard_idempotent (env : FileEffects) (c : Config) :
    (∀ k, isDefined k "_TCLPORT" = true →
      (run env tclPort_h k).config = k ∧ (run env tclPort_h k).included = []) ∧
    ((∀ f k, isDefined k "_TCLPORT" = true → isDefined (env f k) "_TCLPORT" = true) →
      isDefined (run env tclPort_h c).config "_TCLPORT" = true ∧
      (run env tclPort_h (run env tclPort_h c).config).config
        = (run env tclPort_h c).config ∧
      (run env tclPort_h (run env tclPort_h c).config).included = []) := by
  refine ⟨fun k hk => run_header_guarded env k hk, fun henv => ?_⟩
  have hg : isDefined (run env tclPort_h c).config "_TCLPORT" = true := by
    by_cases h : isDefined c "_TCLPORT" = true
    · rw [(run_header_guarded env c h).1]; exact h
    · rw [run_header_first env c (by simpa using h)]
      show isDefined (run env (.seq platformInclude llongFallback)
        (run env (.seq configInclude (.incl "tcl.h"))
          (define c "_TCLPORT" .empty)).config).config "_TCLPORT" = true
      apply run_keeps_defined env _ henv
      apply run_keeps_defined env _ henv
      simp [isDefined, define]
  exact ⟨hg, run_header_guarded env _ hg⟩

/-- Witness for C9: two inclusions on a Unix-like host, starting from nothing. -/
theorem include_guard_idempotent_witness :
    (∀ f k, isDefined k "_TCLPORT" = true →
      isDefined (unixLongEffects f k) "_TCLPORT" = true) ∧
    isDefined (run unixLongEffects tclPort_h emptyConfig).config "_TCLPORT" = true ∧
    (run unixLongEffects tclPort_h
        (run unixLongEffects tclPort_h emptyConfig).config).config
      = (run unixLongEffects tclPort_h emptyConfig).config ∧
    (run unixLongEffects tclPort_h
        (run unixLongEffects tclPort_h emptyConfig).config).included = [] := by
  have henv : ∀ f k, isDefined k "_TCLPORT" = true →
      isDefined (unixLongEffects f k) "_TCLPORT" = true := by
    intro f k hk
    unfold unixLongEffects
    split
    · simpa [isDefined, define] using hk
    · split
      · simpa [isDefined, define] using hk
      · exact hk
  exact ⟨henv, (include_guard_idempotent unixLongEffects emptyConfig).2 henv⟩

end TclPort

namespace IMService

/-! ## The documented connection-state contract -/

theorem runMsgs_append (s : ConnState) (xs ys : List Msg) :
    runMsgs s (xs ++ ys) = runMsgs (runMsgs s xs) ys := by
  simp [runMsgs, List.foldl_append]

theorem runMsgs_cons (s : ConnState) (m : Msg) (ms : List Msg) :
    runMsgs s (m :: ms) = runMsgs (step s m) ms := rfl

/-- Only `-plugInDidLogIn` leads into Connected. -/
theorem step_ne_connected (s : ConnState) (m : Msg) (hs : s ≠ .Connected)
    (hm : m ≠ .plugInDidLogIn) : step s m ≠ .Connected := by
  cases s <;> cases m <;> simp_all [step]

theorem connected_needs_logIn (s : ConnState) (ms : List Msg) (hs : s ≠ .Connected)
    (h : runMsgs s ms = .Connected) : Msg.plugInDidLogIn ∈ ms := by
  induction ms generalizing s with
  | nil => exact absurd h hs
  | cons m rest ih =>
    by_cases hm : m = .plugInDidLogIn
    · simp [hm]
    · rw [runMsgs_cons] at h
      exact List.mem_cons_of_mem _ (ih _ (step_ne_connected s m hs hm) h)

theorem stays_connecting (ms : List Msg)
    (h : ∀ m ∈ ms, m ≠ Msg.plugInDidLogIn ∧ m ≠ Msg.logout ∧ m ≠ Msg.plugInDidLogOutWithError) :
    runMsgs .Connecting ms = .Connecting := by
  induction ms with
  | nil => rfl
  | cons m rest ih =>
    have hm := h m (List.mem_cons_self _ _)
    have hstep : step .Connecting m = .Connecting := by
      cases m <;> simp_all [step]
    rw [runMsgs_cons, hstep]
    exact ih (fun x hx => h x (List.mem_cons_of_mem _ hx))

theorem stays_disconnecting (ms : List Msg)
    (h : ∀ m ∈ ms, m ≠ Msg.plugInDidLogOutWithError ∧ m ≠ Msg.login) :
    runMsgs .Disconnecting ms = .Disconnecting := by
  induction ms with
  | nil => rfl
  | cons m rest ih =>
    have hm := h m (List.mem_cons_self _ _)
    have hstep : step .Disconnecting m = .Disconnecting := by
      cases m <;> simp_all [step]
    rw [runMsgs_cons, hstep]
    exact ih (fun x hx => h x (List.mem_cons_of_mem _ hx))

theorem no_login_not_connected (s : ConnState) (ms : List Msg)
    (h1 : s ≠ .Connecting) (h2 : s ≠ .Connected) (h : Msg.login ∉ ms) :
    runMsgs s ms ≠ .Connecting ∧ runMsgs s ms ≠ .Connected := by
  induction ms generalizing s with
  | nil => exact ⟨h1, h2⟩
  | cons m rest ih =>
    have hm : m ≠ .login := fun e => h (by simp [e])
    have hr : Msg.login ∉ rest := fun e => h (List.mem_cons_of_mem _ e)
    rw [runMsgs_cons]
    have hs : step s m ≠ .Connecting ∧ step s m ≠ .Connected := by
      cases s <;> cases m <;> simp_all [step]
    exact ih _ hs.1 hs.2 hr

/-- C5 fails as stated: after `-login`, `-plugInDidFailToAuthenticate` and then
`-logout` (the documented course when the user cancels the new password
request), the state is Disconnecting, not Connecting, although `-plugInDidLogIn`
has not been called since the `-login`. -/
theorem login_cancelled_counterexample :
    runMsgs .Disconnected [.login] = .Connecting ∧
    Msg.plugInDidLogIn ∉ [Msg.plugInDidFailToAuthenticate, Msg.logout] ∧
    runMsgs .Disconnected ([.login] ++ [.plugInDidFailToAuthenticate, .logout])
      = .Disconnecting ∧
    runMsgs .Disconnected ([.login] ++ [.plugInDidFailToAuthenticate, .logout])
      ≠ .Connecting := by
  decide

/-- C5, amended: `-login` puts the state at Connecting, where it stays as long as
none of `-plugInDidLogIn`, `-logout`, `-plugInDidLogOutWithError:reconnect:` is
sent; `-plugInDidLogIn` changes Connecting to Connected; `-logout` puts the state
at Disconnecting, where it stays as long as neither
`-plugInDidLogOutWithError:reconnect:` nor `-login` is sent;
`-plugInDidLogOutWithError:reconnect:` changes the state to Disconnected; and the
state is never Connected unless `-plugInDidLogIn` has been called since the last
`-login` (nor, from a state other than Connecting and Connected, without any
`-login`). -/
theorem connection_contract :
    (∀ s, step s .login = .Connecting) ∧
    (∀ ms : List Msg,
      (∀ m ∈ ms, m ≠ Msg.plugInDidLogIn ∧ m ≠ Msg.logout ∧ m ≠ Msg.plugInDidLogOutWithError) →
      runMsgs .Connecting ms = .Connecting) ∧
    step .Connecting .plugInDidLogIn = .Connected ∧
    (∀ s, step s .logout = .Disconnecting) ∧
    (∀ ms : List Msg, (∀ m ∈ ms, m ≠ Msg.plugInDidLogOutWithError ∧ m ≠ Msg.login) →
      runMsgs .Disconnecting ms = .Disconnecting) ∧
    (∀ s, step s .plugInDidLogOutWithError = .Disconnected) ∧
    (∀ (s : ConnState) (before after : List Msg),
      runMsgs s (before ++ Msg.login :: after) = .Connected → Msg.plugInDidLogIn ∈ after) ∧
    (∀ (s : ConnState) (ms : List Msg), s ≠ .Connecting → s ≠ .Connected →
      Msg.login ∉ ms → runMsgs s ms ≠ .Connected) := by
  refine ⟨fun s => by cases s <;> rfl, stays_connecting, rfl, fun s => by cases s <;> rfl,
    stays_disconnecting, fun s => by cases s <;> rfl, ?_, ?_⟩
  · intro s before after h
    rw [runMsgs_append, runMsgs_cons] at h
    have hc : step (runMsgs s before) .login = .Connecting := by
      cases runMsgs s before <;> rfl
    rw [hc] at h
    exact connected_needs_logIn .Connecting after (by decide) h
  · intro s ms h1 h2 h
    exact (no_login_not_connected s ms h1 h2 h).2

/-- Witness for C5 as amended: a login that completes, and one that is still
pending. -/
theorem connection_contract_witness :
    runMsgs .Connecting [.updateAccountSettings, .plugInDidFailToAuthenticate,
      .updateAccountSettings] = .Connecting ∧
    runMsgs .Disconnected ([.updateAccountSettings] ++
      Msg.login :: [.plugInDidLogIn, .plugInDidUpdateProperties]) = .Connected ∧
    Msg.plugInDidLogIn ∈ [Msg.plugInDidLogIn, Msg.plugInDidUpdateProperties] :=
  ⟨connection_contract.2.1 _ (by decide), by decide,
    connection_contract.2.2.2.2.2.2.1 .Disconnected [.updateAccountSettings]
      [.plugInDidLogIn, .plugInDidUpdateProperties] (by decide)⟩

end IMService
